import Mathlib

/-!
Verification of `brewery/ds/base.py`: abstract data-stream contracts and the
field-type inference engine (`DataSource.read_fields`).

Python values and records are shallowly embedded; the stateful scan of
`read_fields` is embedded as explicit state passing over a `ProbeState`.
Exceptions are embedded with `Except`.  The collaborators that live in the
repository but outside this excerpt (`brewery.dq.FieldTypeProbe`,
`brewery.metadata.Field`, `brewery.common.collapse_record`) are modelled from
the spec, as marked on their doc comments.
-/

set_option autoImplicit false

namespace Brewery

/-- A Python value as far as this module observes it: scalars, text (`str`
vs `unicode`, as in Python 2), `None`, and nested dictionaries (records).
Only `type(value) == dict` is ever inspected by the code under study. -/
inductive PyVal where
  | bool : Bool → PyVal
  | int : Int → PyVal
  | str : String → PyVal
  | unicode : String → PyVal
  | pynone : PyVal
  | dict : List (String × PyVal) → PyVal

/-- A record: a key-value mapping produced by `records()`.  Embedded as an
association list in the dictionary's iteration order. -/
abbrev Record := List (String × PyVal)

/-- The result of Python's `type(value).__name__`, which is the evidence the
type probe accumulates. -/
def pyTypeName : PyVal → String
  | PyVal.bool _ => "bool"
  | PyVal.int _ => "int"
  | PyVal.str _ => "str"
  | PyVal.unicode _ => "unicode"
  | PyVal.pynone => "NoneType"
  | PyVal.dict _ => "dict"

/-- The Python test `type(value) == dict`. -/
def PyVal.isDict : PyVal → Bool
  | PyVal.dict _ => true
  | _ => false

/-- Whether the value is a Python `int`. -/
def PyVal.isInt : PyVal → Bool
  | PyVal.int _ => true
  | _ => false

/-- The Python exceptions this module can raise or propagate. -/
inductive PyErr where
  | notImplementedError : PyErr
  | attributeError : String → PyErr
  | keyError : String → PyErr
  | sourceError : String → PyErr
  deriving DecidableEq

/-- Modelled from the spec: `brewery.dq.FieldTypeProbe` (repository code not
under `src/`): a "per-key accumulator of type evidence across all probed
values for that key".  `field` is the key the probe was constructed with;
`storage_types` records the native type name of each probed value in order. -/
structure FieldTypeProbe where
  field : String
  storage_types : List String
  deriving DecidableEq

/-- Modelled from the spec: feeding one value into the probe's evidence
accumulator ("given a value, update internal type evidence"). -/
def FieldTypeProbe.probe (p : FieldTypeProbe) (v : PyVal) : FieldTypeProbe :=
  { field := p.field, storage_types := p.storage_types ++ [pyTypeName v] }

/-- Modelled from the spec: the probe's single summary — "the unique storage
type if all observed values agree on one underlying type, or an empty/absent
value if evidence is mixed or absent". -/
def FieldTypeProbe.unique_storage_type (p : FieldTypeProbe) : Option String :=
  match p.storage_types with
  | [] => Option.none
  | t :: rest => if rest.all (fun u => u = t) then Option.some t else Option.none

/-- Modelled from the spec: `brewery.metadata.Field` (repository code not
under `src/`): "describes one data attribute", with `name`, `storage_type`
and optional `concrete_storage_type` ("set only when `storage_type` is
`unknown` and a more specific native type was observed"). -/
structure Field where
  name : String
  storage_type : String
  concrete_storage_type : Option String
  deriving DecidableEq

/-- Modelled from the spec: `brewery.common.collapse_record` (repository code
not under `src/`): "a flattening function: mapping-in, flat-mapping-out,
nested keys joined by a fixed delimiter" (the dot).  `parent` is the dotted
prefix accumulated so far; the top-level call uses the empty prefix. -/
def collapse_with (parent : String) (record : Record) : Record :=
  match record with
  | [] => []
  | (k, v) :: rest =>
    let full := if parent = "" then k else parent ++ "." ++ k
    (match v with
     | PyVal.dict d => collapse_with full d
     | _ => [(full, v)]) ++ collapse_with parent rest
termination_by sizeOf record
decreasing_by
  all_goals simp_wf
  all_goals omega

/-- Modelled from the spec: `collapse_record` as called by `read_fields`,
flattening from the empty prefix. -/
def collapse_record (record : Record) : Record :=
  collapse_with "" record

/-- The local scan state of `read_fields`: the `keys` list (first-seen order)
and the `probes` dictionary, embedded as an association list in insertion
order (`base.py` lines 138-139). -/
structure ProbeState where
  keys : List String
  probes : List (String × FieldTypeProbe)
  deriving DecidableEq

/-- Dictionary lookup `probes[full_key]` / containment `full_key in probes`. -/
def lookupProbe : List (String × FieldTypeProbe) → String → Option FieldTypeProbe
  | [], _ => Option.none
  | (k, p) :: rest, key => if k = key then Option.some p else lookupProbe rest key

/-- In-place mutation `probe.probe(value)` of the probe stored under `key`:
the first entry with that key is replaced by the probed probe. -/
def updateProbe : List (String × FieldTypeProbe) → String → PyVal → List (String × FieldTypeProbe)
  | [], _, _ => []
  | (k, p) :: rest, key, v =>
    if k = key then (k, FieldTypeProbe.probe p v) :: rest
    else (k, p) :: updateProbe rest key v

/-- The probe-or-create step of `probe_record` (`base.py` lines 149-155): if
`full_key` is not yet in `probes`, create a fresh `FieldTypeProbe(full_key)`,
store it and append `full_key` to `keys`; then feed `v` to the probe. -/
def probeKey (full_key : String) (v : PyVal) (st : ProbeState) : ProbeState :=
  match lookupProbe st.probes full_key with
  | Option.some _ =>
    { keys := st.keys, probes := updateProbe st.probes full_key v }
  | Option.none =>
    { keys := st.keys ++ [full_key],
      probes := st.probes ++
        [(full_key, FieldTypeProbe.probe { field := full_key, storage_types := [] } v)] }

/-- Embedding of `probe_record(record, parent)` (`base.py` lines 141-155).  `parent` is a
string, with `""` standing for Python's falsy `None`/empty prefix (the code
only tests its truthiness).  Reading `self.expand` when the attribute was
never defined raises `AttributeError`; if `self.expand` is truthy and the
value is a dict, recurse with the qualified key instead of probing. -/
def probe_record (expand : Option Bool) (record : Record) (parent : String)
    (st : ProbeState) : Except PyErr ProbeState :=
  match record with
  | [] => Except.ok st
  | (key, v) :: rest =>
    let full_key := if parent = "" then key else parent ++ "." ++ key
    match expand with
    | Option.none => Except.error (PyErr.attributeError "expand")
    | Option.some ex =>
      match ex, v with
      | true, PyVal.dict d =>
        match probe_record (Option.some true) d full_key st with
        | Except.error e => Except.error e
        | Except.ok st1 => probe_record (Option.some true) rest parent st1
      | _, _ => probe_record expand rest parent (probeKey full_key v st)
termination_by sizeOf record
decreasing_by
  all_goals simp_wf
  all_goals omega

/-- The scan loop of `read_fields` (`base.py` lines 157-165): draw records,
optionally collapse, probe, and stop when `limit and count >= limit` — the
check runs after probing and `count` is incremented after the check.  An
element `Except.error e` of `recs` is an exception raised by the source's
iterator while yielding that record. -/
def scanLoop (expand : Option Bool) (limit : Nat) (collapse : Bool)
    (recs : List (Except PyErr Record)) (count : Nat) (st : ProbeState) :
    Except PyErr ProbeState :=
  match recs with
  | [] => Except.ok st
  | Except.error e :: _ => Except.error e
  | Except.ok record :: rest =>
    let record1 := if collapse then collapse_record record else record
    match probe_record expand record1 "" st with
    | Except.error e => Except.error e
    | Except.ok st1 =>
      if limit ≠ 0 ∧ limit ≤ count then Except.ok st1
      else scanLoop expand limit collapse rest (count + 1) st1

/-- The per-key field construction of `read_fields` (`base.py` lines
170-184): `Field(probe.field)`, then resolve the storage type from
`probe.unique_storage_type` — absent/mixed evidence gives `"unknown"`, the
sole normalization-table entry maps `"unicode"` to `"string"`, and any other
unique type gives `"unknown"` with the native type kept as
`concrete_storage_type`. -/
def buildField (p : FieldTypeProbe) : Field :=
  match p.unique_storage_type with
  | Option.none =>
    { name := p.field, storage_type := "unknown", concrete_storage_type := Option.none }
  | Option.some t =>
    if t = "unicode" then
      { name := p.field, storage_type := "string", concrete_storage_type := Option.none }
    else
      { name := p.field, storage_type := "unknown", concrete_storage_type := Option.some t }

/-- The field-list construction loop of `read_fields` (`base.py` lines
167-184): `for key in keys: probe = probes[key]; ...`.  A key with no probe
would raise `KeyError` in Python; the scan invariant rules this out. -/
def buildFields (keys : List String) (probes : List (String × FieldTypeProbe)) :
    Except PyErr (List Field) :=
  match keys with
  | [] => Except.ok []
  | key :: rest =>
    match lookupProbe probes key with
    | Option.none => Except.error (PyErr.keyError key)
    | Option.some p =>
      match buildFields rest probes with
      | Except.error e => Except.error e
      | Except.ok fs => Except.ok (buildField p :: fs)

/-- A concrete data source as `read_fields` observes it.  `expand` is the
undeclared `self.expand` attribute (`Option.none` when the concrete class
never set it, so that reading it raises `AttributeError`); `fields` is the
stream's `fields` attribute; `recs` is what the concrete subclass's
`records()` iterator yields (each element either a record or an exception
raised mid-iteration). -/
structure DataSource where
  expand : Option Bool
  fields : Option (List Field)
  recs : List (Except PyErr Record)

/-- Embedding of `DataSource.read_fields(limit, collapse)` (`base.py` lines 119-187).  On
success the computed field list is assigned to `self.fields` and returned; an
exception propagates with the source object unchanged (the assignment happens
only after the scan and field construction complete). -/
def DataSource.read_fields (s : DataSource) (limit : Nat) (collapse : Bool) :
    Except (PyErr × DataSource) (List Field × DataSource) :=
  match scanLoop s.expand limit collapse s.recs 0 { keys := [], probes := [] } with
  | Except.error e => Except.error (e, s)
  | Except.ok st =>
    match buildFields st.keys st.probes with
    | Except.error e => Except.error (e, s)
    | Except.ok fs =>
      Except.ok (fs, { expand := s.expand, fields := Option.some fs, recs := s.recs })

/-- Method `rows` of the abstract base `DataSource` (`base.py` lines 107-111): always
raises `NotImplementedError`, whatever the receiver. -/
def DataSource.rows (_s : DataSource) : Except PyErr (List (List PyVal)) :=
  Except.error PyErr.notImplementedError

/-- Method `records` of the abstract base `DataSource` (`base.py` lines 113-117):
always raises `NotImplementedError`, whatever the receiver.  (The `recs`
component of `DataSource` models the overriding implementation a concrete
subclass supplies; this definition is the unoverridden base method.) -/
def DataSource.records (_s : DataSource) : Except PyErr (List Record) :=
  Except.error PyErr.notImplementedError

/-- A data target as this excerpt observes it. -/
structure DataTarget where
  fields : Option (List Field)

/-- Method `append` of the abstract base `DataTarget` (`base.py` lines 196-201):
always raises `NotImplementedError`, whatever the receiver and argument. -/
def DataTarget.append (_t : DataTarget) (_obj : PyVal) : Except PyErr Unit :=
  Except.error PyErr.notImplementedError

/-- A lifecycle-managed stream (`DataStream`, `base.py` lines 33-98): some
backend state `σ` together with the (overridable) `initialize`/`finalize`
hooks, which default to no-ops in the base class. -/
structure DataStream (σ : Type) where
  state : σ
  initHook : σ → σ
  finHook : σ → σ

/-- Embedding of `__enter__` (`base.py` lines 93-95): call `initialize` (the `initHook`)
and return `self`. -/
def DataStream.enter {σ : Type} (s : DataStream σ) : DataStream σ :=
  { state := s.initHook s.state, initHook := s.initHook, finHook := s.finHook }

/-- Embedding of `__exit__` (`base.py` lines 97-98): call `finalize` (the `finHook`); the
implicit `None` return value means an in-flight exception is re-raised. -/
def DataStream.exitStream {σ : Type} (s : DataStream σ) : DataStream σ :=
  { state := s.finHook s.state, initHook := s.initHook, finHook := s.finHook }

/-- Python's `with` statement over a `DataStream`: `__enter__`, run the body
on the yielded object, then `__exit__` on both the normal and the error exit
path; since `__exit__` returns `None`, an error propagates to the caller. -/
def withStream {σ α : Type} (s : DataStream σ)
    (body : DataStream σ → Except (PyErr × DataStream σ) (α × DataStream σ)) :
    Except (PyErr × DataStream σ) (α × DataStream σ) :=
  match body s.enter with
  | Except.ok (a, s2) => Except.ok (a, s2.exitStream)
  | Except.error (e, s2) => Except.error (e, s2.exitStream)

/-! ### Spec-side comparators

Definitions below follow the words of the spec, to be compared with the
embedded code above. -/

/-- Record a key on first sight: the spec's "first-seen order" accumulator. -/
def insertNew (seen : List String) (k : String) : List String :=
  if k ∈ seen then seen else seen ++ [k]

/-- The spec's "distinct top-level keys ... in the order each key was first
seen", over a whole record stream. -/
def firstSeenKeys (rl : List Record) : List String :=
  rl.foldl (fun seen r => r.foldl (fun ks kv => insertNew ks kv.1) seen) []

/-- A record with "no nested-mapping values". -/
def recFlat (r : Record) : Bool :=
  r.all (fun kv => !kv.2.isDict)

/-- A record that has key `key` and only integer values at it. -/
def recHasIntAt (key : String) (r : Record) : Bool :=
  r.any (fun kv => kv.1 = key) && r.all (fun kv => kv.1 ≠ key || kv.2.isInt)

/-- Modelled from the spec: the limit-free scan — "with `limit=0`, the engine
probes all records regardless of stream length".  Identical to `scanLoop`
except that the stop check is gone. -/
def scanAllRecords (expand : Option Bool) (collapse : Bool)
    (recs : List (Except PyErr Record)) (st : ProbeState) :
    Except PyErr ProbeState :=
  match recs with
  | [] => Except.ok st
  | Except.error e :: _ => Except.error e
  | Except.ok record :: rest =>
    let record1 := if collapse then collapse_record record else record
    match probe_record expand record1 "" st with
    | Except.error e => Except.error e
    | Except.ok st1 => scanAllRecords expand collapse rest st1

/-- Probing one flat record is a plain left fold of `probeKey` over its
entries (no recursion fires when no value is a mapping). -/
def probeFlat (r : Record) (st : ProbeState) : ProbeState :=
  r.foldl (fun st kv => probeKey kv.1 kv.2 st) st

/-- The scan-state invariant: the `keys` list names exactly the probes, in
order, and every probe was constructed with the key it is stored under. -/
def ProbeState.Coherent (st : ProbeState) : Prop :=
  st.probes.map Prod.fst = st.keys ∧ ∀ kp ∈ st.probes, kp.2.field = kp.1

/-! ### Association-list lemmas about the probes dictionary -/

theorem FieldTypeProbe.probe_field (p : FieldTypeProbe) (v : PyVal) :
    (p.probe v).field = p.field := rfl

theorem lookupProbe_isSome_iff {ps : List (String × FieldTypeProbe)} {k : String} :
    (lookupProbe ps k).isSome ↔ k ∈ ps.map Prod.fst := by
  induction ps with
  | nil => simp [lookupProbe]
  | cons kp rest ih =>
    obtain ⟨k0, p0⟩ := kp
    by_cases h : k0 = k
    · subst h
      simp [lookupProbe]
    · have h' : ¬k = k0 := fun hh => h hh.symm
      simp [lookupProbe, h, h', ih]

theorem lookupProbe_mem {ps : List (String × FieldTypeProbe)} {k : String}
    {p : FieldTypeProbe} (h : lookupProbe ps k = Option.some p) : (k, p) ∈ ps := by
  induction ps with
  | nil => simp [lookupProbe] at h
  | cons kp rest ih =>
    obtain ⟨k0, p0⟩ := kp
    by_cases hk : k0 = k
    · subst hk
      simp [lookupProbe] at h
      simp [h]
    · simp [lookupProbe, hk] at h
      exact List.mem_cons_of_mem _ (ih h)

theorem lookupProbe_append {ps qs : List (String × FieldTypeProbe)} {k : String}
    (h : lookupProbe ps k = Option.none) :
    lookupProbe (ps ++ qs) k = lookupProbe qs k := by
  induction ps with
  | nil => simp
  | cons kp rest ih =>
    obtain ⟨k0, p0⟩ := kp
    by_cases hk : k0 = k
    · simp [lookupProbe, hk] at h
    · simp [lookupProbe, hk] at h ⊢
      exact ih h

theorem lookupProbe_append_some {ps qs : List (String × FieldTypeProbe)} {k : String}
    {p : FieldTypeProbe} (h : lookupProbe ps k = Option.some p) :
    lookupProbe (ps ++ qs) k = Option.some p := by
  induction ps with
  | nil => simp [lookupProbe] at h
  | cons kp rest ih =>
    obtain ⟨k0, p0⟩ := kp
    by_cases hk : k0 = k <;> simp [lookupProbe, hk] at h ⊢
    · exact h
    · exact ih h

theorem updateProbe_map_fst (ps : List (String × FieldTypeProbe)) (k : String) (v : PyVal) :
    (updateProbe ps k v).map Prod.fst = ps.map Prod.fst := by
  induction ps with
  | nil => rfl
  | cons kp rest ih =>
    obtain ⟨k0, p0⟩ := kp
    by_cases hk : k0 = k <;> simp [updateProbe, hk, ih]

theorem updateProbe_field {ps : List (String × FieldTypeProbe)} {k : String} {v : PyVal}
    (h : ∀ kp ∈ ps, kp.2.field = kp.1) :
    ∀ kp ∈ updateProbe ps k v, kp.2.field = kp.1 := by
  induction ps with
  | nil => simp [updateProbe]
  | cons kp0 rest ih =>
    obtain ⟨k0, p0⟩ := kp0
    intro kp hkp
    by_cases hk : k0 = k
    · simp [updateProbe, hk] at hkp
      rcases hkp with rfl | hkp
      · simpa [FieldTypeProbe.probe_field] using h (k, p0) (by simp [hk])
      · exact h kp (List.mem_cons_of_mem _ hkp)
    · simp [updateProbe, hk] at hkp
      rcases hkp with rfl | hkp
      · exact h (k0, p0) (by simp)
      · exact ih (fun kp hkp => h kp (List.mem_cons_of_mem _ hkp)) kp hkp

theorem lookupProbe_update_self {ps : List (String × FieldTypeProbe)} {k : String}
    {p : FieldTypeProbe} (v : PyVal) (h : lookupProbe ps k = Option.some p) :
    lookupProbe (updateProbe ps k v) k = Option.some (p.probe v) := by
  induction ps with
  | nil => simp [lookupProbe] at h
  | cons kp rest ih =>
    obtain ⟨k0, p0⟩ := kp
    by_cases hk : k0 = k <;> simp [lookupProbe, updateProbe, hk] at h ⊢
    · simp [h]
    · exact ih h

theorem lookupProbe_update_ne {ps : List (String × FieldTypeProbe)} {k k' : String}
    (v : PyVal) (h : k' ≠ k) :
    lookupProbe (updateProbe ps k v) k' = lookupProbe ps k' := by
  induction ps with
  | nil => rfl
  | cons kp rest ih =>
    obtain ⟨k0, p0⟩ := kp
    by_cases hk : k0 = k
    · subst hk
      simp [updateProbe, lookupProbe, Ne.symm h]
    · by_cases hk' : k0 = k' <;> simp [updateProbe, lookupProbe, hk, hk', ih, h]

/-! ### probeKey lemmas -/

theorem probeKey_keys {st : ProbeState} (k : String) (v : PyVal) (h : st.Coherent) :
    (probeKey k v st).keys = insertNew st.keys k := by
  unfold probeKey insertNew
  cases hl : lookupProbe st.probes k with
  | none =>
    have hm : k ∉ st.keys := by
      rw [← h.1]
      intro hmem
      have := lookupProbe_isSome_iff.mpr hmem
      simp [hl] at this
    simp [hm]
  | some p =>
    have hm : k ∈ st.keys := by
      rw [← h.1]
      exact lookupProbe_isSome_iff.mp (by simp [hl])
    simp [hm]

theorem probeKey_coherent {st : ProbeState} (k : String) (v : PyVal) (h : st.Coherent) :
    (probeKey k v st).Coherent := by
  unfold probeKey
  cases hl : lookupProbe st.probes k with
  | none =>
    constructor
    · simp [h.1]
    · intro kp hkp
      rcases List.mem_append.mp hkp with hkp | hkp
      · exact h.2 kp hkp
      · simp at hkp
        simp [hkp, FieldTypeProbe.probe_field]
  | some p =>
    exact ⟨by simp [updateProbe_map_fst, h.1], updateProbe_field h.2⟩

theorem probeKey_lookup_self {st : ProbeState} (k : String) (v : PyVal) :
    lookupProbe (probeKey k v st).probes k
      = Option.some ((match lookupProbe st.probes k with
          | Option.some p => p
          | Option.none => { field := k, storage_types := [] }).probe v) := by
  unfold probeKey
  cases hl : lookupProbe st.probes k with
  | none => simp [lookupProbe_append hl, lookupProbe]
  | some p => simp [lookupProbe_update_self v hl]

theorem probeKey_lookup_ne {st : ProbeState} {k k' : String} (v : PyVal) (h : k' ≠ k) :
    lookupProbe (probeKey k v st).probes k' = lookupProbe st.probes k' := by
  unfold probeKey
  cases hl : lookupProbe st.probes k with
  | none =>
    cases hl' : lookupProbe st.probes k' with
    | none => simp [lookupProbe_append hl', lookupProbe, Ne.symm h]
    | some p' => simp [lookupProbe_append_some hl']
  | some p => simp [lookupProbe_update_ne v h]

/-! ### Probing flat records -/

theorem probe_record_flat {b : Bool} (r : Record) (st : ProbeState)
    (hf : recFlat r = true) :
    probe_record (Option.some b) r "" st = Except.ok (probeFlat r st) := by
  induction r generalizing st with
  | nil => simp [probe_record, probeFlat]
  | cons kv rest ih =>
    obtain ⟨k, v⟩ := kv
    have hv : v.isDict = false := by
      have := hf
      simp [recFlat] at this
      exact this.1
    have hrest : recFlat rest = true := by
      have := hf
      simp [recFlat] at this ⊢
      exact this.2
    have hfold : probeFlat ((k, v) :: rest) st = probeFlat rest (probeKey k v st) := rfl
    rw [hfold]
    cases b <;> cases v <;> simp [PyVal.isDict] at hv ⊢ <;>
      simp [probe_record, ih _ hrest]

theorem probeFlat_coherent (r : Record) (st : ProbeState) (h : st.Coherent) :
    (probeFlat r st).Coherent := by
  induction r generalizing st with
  | nil => exact h
  | cons kv rest ih => exact ih _ (probeKey_coherent kv.1 kv.2 h)

theorem probeFlat_keys (r : Record) (st : ProbeState) (h : st.Coherent) :
    (probeFlat r st).keys = r.foldl (fun ks kv => insertNew ks kv.1) st.keys := by
  induction r generalizing st with
  | nil => rfl
  | cons kv rest ih =>
    have h1 : probeFlat (kv :: rest) st = probeFlat rest (probeKey kv.1 kv.2 st) := rfl
    rw [h1, ih _ (probeKey_coherent kv.1 kv.2 h), List.foldl_cons,
      probeKey_keys kv.1 kv.2 h]

theorem scanLoop_zero_flat {b : Bool} (rl : List Record) (count : Nat) (st : ProbeState)
    (hf : ∀ r ∈ rl, recFlat r = true) :
    scanLoop (Option.some b) 0 false (rl.map Except.ok) count st
      = Except.ok (rl.foldl (fun st r => probeFlat r st) st) := by
  induction rl generalizing count st with
  | nil => simp [scanLoop]
  | cons r rest ih =>
    have h1 : recFlat r = true := hf r (by simp)
    simp [scanLoop, probe_record_flat r st h1,
      ih (count + 1) _ (fun r hr => hf r (by simp [hr]))]

/-! ### Building the field list from a coherent state -/

theorem buildField_name (p : FieldTypeProbe) : (buildField p).name = p.field := by
  unfold buildField
  cases p.unique_storage_type with
  | none => rfl
  | some t => by_cases ht : t = "unicode" <;> simp [ht]

theorem buildFields_spec (keys : List String) (probes : List (String × FieldTypeProbe))
    (h : ∀ k ∈ keys, ∃ p, lookupProbe probes k = Option.some p ∧ p.field = k) :
    ∃ fs, buildFields keys probes = Except.ok fs ∧ fs.map Field.name = keys ∧
      ∀ k p, k ∈ keys → lookupProbe probes k = Option.some p → buildField p ∈ fs := by
  induction keys with
  | nil => exact ⟨[], rfl, rfl, by simp⟩
  | cons key rest ih =>
    obtain ⟨p0, hp0, hf0⟩ := h key (by simp)
    obtain ⟨fs, hfs, hnames, hmem⟩ := ih (fun k hk => h k (by simp [hk]))
    refine ⟨buildField p0 :: fs, ?_, ?_, ?_⟩
    · simp [buildFields, hp0, hfs]
    · simp [hnames, buildField_name, hf0]
    · intro k p hk hp
      rcases List.mem_cons.mp hk with rfl | hk'
      · have : p = p0 := Option.some.inj (hp.symm.trans hp0)
        subst this
        exact List.mem_cons_self _ _
      · exact List.mem_cons_of_mem _ (hmem k p hk' hp)

theorem coherent_lookup_field {st : ProbeState} (h : st.Coherent) :
    ∀ k ∈ st.keys, ∃ p, lookupProbe st.probes k = Option.some p ∧ p.field = k := by
  intro k hk
  have hm : k ∈ st.probes.map Prod.fst := h.1 ▸ hk
  obtain ⟨p, hp⟩ := Option.isSome_iff_exists.mp (lookupProbe_isSome_iff.mpr hm)
  exact ⟨p, hp, h.2 (k, p) (lookupProbe_mem hp)⟩

/-! ### First-seen key order -/

theorem insertNew_nodup {seen : List String} (k : String) (h : seen.Nodup) :
    (insertNew seen k).Nodup := by
  unfold insertNew
  by_cases hk : k ∈ seen
  · simp [hk, h]
  · simp [hk, List.nodup_append, h]

theorem foldl_insertNew_record_nodup (r : Record) (seen : List String) (h : seen.Nodup) :
    (r.foldl (fun ks kv => insertNew ks kv.1) seen).Nodup := by
  induction r generalizing seen with
  | nil => exact h
  | cons kv rest ih => exact ih _ (insertNew_nodup kv.1 h)

theorem foldl_insertNew_stream_nodup (rl : List Record) (seen : List String)
    (h : seen.Nodup) :
    (rl.foldl (fun seen r => r.foldl (fun ks kv => insertNew ks kv.1) seen) seen).Nodup := by
  induction rl generalizing seen with
  | nil => exact h
  | cons r rest ih => exact ih _ (foldl_insertNew_record_nodup r seen h)

theorem firstSeenKeys_nodup (rl : List Record) : (firstSeenKeys rl).Nodup :=
  foldl_insertNew_stream_nodup rl [] List.nodup_nil

theorem foldl_probeFlat_coherent (rl : List Record) (st : ProbeState) (h : st.Coherent) :
    (rl.foldl (fun st r => probeFlat r st) st).Coherent := by
  induction rl generalizing st with
  | nil => exact h
  | cons r rest ih => exact ih _ (probeFlat_coherent r st h)

theorem foldl_probeFlat_keys (rl : List Record) (st : ProbeState) (h : st.Coherent) :
    (rl.foldl (fun st r => probeFlat r st) st).keys
      = rl.foldl (fun seen r => r.foldl (fun ks kv => insertNew ks kv.1) seen) st.keys := by
  induction rl generalizing st with
  | nil => rfl
  | cons r rest ih =>
    rw [List.foldl_cons, List.foldl_cons, ih _ (probeFlat_coherent r st h),
      probeFlat_keys r st h]

/-! ### Type evidence accumulated at one key -/

/-- All evidence the probe stored under `key` has collected (if any) is the
single native type `tname`, and is nonempty. -/
def ProbeEvidence (key tname : String) (st : ProbeState) : Prop :=
  ∀ p, lookupProbe st.probes key = Option.some p →
    p.storage_types ≠ [] ∧ ∀ t ∈ p.storage_types, t = tname

theorem probeKey_evidence {key tname k : String} {v : PyVal} {st : ProbeState}
    (h : ProbeEvidence key tname st)
    (hv : k = key → pyTypeName v = tname) :
    ProbeEvidence key tname (probeKey k v st) := by
  intro p hp
  by_cases hk : k = key
  · subst hk
    rw [probeKey_lookup_self k v] at hp
    cases hl : lookupProbe st.probes k with
    | none =>
      rw [hl] at hp
      have : p = FieldTypeProbe.probe { field := k, storage_types := [] } v :=
        (Option.some.inj hp).symm
      subst this
      simp [FieldTypeProbe.probe, hv rfl]
    | some p0 =>
      rw [hl] at hp
      have : p = p0.probe v := (Option.some.inj hp).symm
      subst this
      have h0 := h p0 hl
      refine ⟨by simp [FieldTypeProbe.probe], ?_⟩
      intro t ht
      simp [FieldTypeProbe.probe] at ht
      rcases ht with ht | ht
      · exact h0.2 t ht
      · rw [ht, hv rfl]
  · rw [probeKey_lookup_ne v (fun hh => hk hh.symm)] at hp
    exact h p hp

theorem probeKey_lookup_isSome_mono {key k : String} {v : PyVal} {st : ProbeState}
    (h : (lookupProbe st.probes key).isSome) :
    (lookupProbe (probeKey k v st).probes key).isSome := by
  by_cases hk : key = k
  · subst hk
    rw [probeKey_lookup_self key v]
    rfl
  · rw [probeKey_lookup_ne v hk]
    exact h

theorem probeFlat_evidence {key tname : String} (r : Record) (st : ProbeState)
    (h : ProbeEvidence key tname st)
    (hall : ∀ kv ∈ r, kv.1 = key → pyTypeName kv.2 = tname) :
    ProbeEvidence key tname (probeFlat r st) := by
  induction r generalizing st with
  | nil => exact h
  | cons kv rest ih =>
    exact ih _ (probeKey_evidence h (hall kv (by simp)))
      (fun kv hkv => hall kv (List.mem_cons_of_mem _ hkv))

theorem probeFlat_isSome_mono {key : String} (r : Record) (st : ProbeState)
    (h : (lookupProbe st.probes key).isSome) :
    (lookupProbe (probeFlat r st).probes key).isSome := by
  induction r generalizing st with
  | nil => exact h
  | cons kv rest ih => exact ih _ (probeKey_lookup_isSome_mono h)

theorem probeFlat_isSome_of_has {key : String} (r : Record) (st : ProbeState)
    (h : r.any (fun kv => kv.1 = key) = true) :
    (lookupProbe (probeFlat r st).probes key).isSome := by
  induction r generalizing st with
  | nil => simp at h
  | cons kv rest ih =>
    by_cases hk : kv.1 = key
    · refine probeFlat_isSome_mono rest _ ?_
      subst hk
      rw [probeKey_lookup_self kv.1 kv.2]
      rfl
    · rw [List.any_cons] at h
      have hf : (decide (kv.1 = key)) = false := by simp [hk]
      rw [hf, Bool.false_or] at h
      exact ih _ h

theorem foldl_probeFlat_evidence {key tname : String} (rl : List Record) (st : ProbeState)
    (h : ProbeEvidence key tname st)
    (hall : ∀ r ∈ rl, ∀ kv ∈ r, kv.1 = key → pyTypeName kv.2 = tname) :
    ProbeEvidence key tname (rl.foldl (fun st r => probeFlat r st) st) := by
  induction rl generalizing st with
  | nil => exact h
  | cons r rest ih =>
    exact ih _ (probeFlat_evidence r st h (hall r (by simp)))
      (fun r hr => hall r (List.mem_cons_of_mem _ hr))

theorem foldl_probeFlat_isSome_mono {key : String} (rl : List Record) (st : ProbeState)
    (h : (lookupProbe st.probes key).isSome) :
    (lookupProbe ((rl.foldl (fun st r => probeFlat r st) st)).probes key).isSome := by
  induction rl generalizing st with
  | nil => exact h
  | cons r rest ih => exact ih _ (probeFlat_isSome_mono r st h)

theorem foldl_probeFlat_isSome {key : String} (rl : List Record) (st : ProbeState)
    (hne : rl ≠ [])
    (hall : ∀ r ∈ rl, r.any (fun kv => kv.1 = key) = true) :
    (lookupProbe ((rl.foldl (fun st r => probeFlat r st) st)).probes key).isSome := by
  cases rl with
  | nil => exact absurd rfl hne
  | cons r rest =>
    rw [List.foldl_cons]
    exact foldl_probeFlat_isSome_mono rest _
      (probeFlat_isSome_of_has r st (hall r (by simp)))

/-! ### The probe summary -/

theorem unique_storage_type_of_uniform {u : String} (p : FieldTypeProbe)
    (hne : p.storage_types ≠ []) (hall : ∀ t ∈ p.storage_types, t = u) :
    p.unique_storage_type = Option.some u := by
  obtain ⟨t, rest, hst⟩ : ∃ t rest, p.storage_types = t :: rest := by
    cases h : p.storage_types with
    | nil => exact absurd h hne
    | cons t rest => exact ⟨t, rest, rfl⟩
  have ht : t = u := hall t (by simp [hst])
  have hrest : rest.all (fun x => x = t) = true := by
    simp only [List.all_eq_true, decide_eq_true_eq]
    intro x hx
    rw [hall x (by simp [hst, hx]), ht]
  unfold FieldTypeProbe.unique_storage_type
  rw [hst]
  simp only [hrest, if_true]
  rw [ht]

theorem unique_storage_type_none_of_mixed {t₁ t₂ : String} (p : FieldTypeProbe)
    (h1 : t₁ ∈ p.storage_types) (h2 : t₂ ∈ p.storage_types) (hne : t₁ ≠ t₂) :
    p.unique_storage_type = Option.none := by
  unfold FieldTypeProbe.unique_storage_type
  cases h : p.storage_types with
  | nil => rfl
  | cons t rest =>
    have hfalse : rest.all (fun x => x = t) = false := by
      by_contra hc
      have hall : ∀ x ∈ rest, x = t := by
        have := eq_true_of_ne_false (fun hh => hc hh)
        simpa [List.all_eq_true] using this
      have e1 : t₁ = t := by
        rcases List.mem_cons.mp (h ▸ h1) with h' | h'
        · exact h'
        · exact hall _ h'
      have e2 : t₂ = t := by
        rcases List.mem_cons.mp (h ▸ h2) with h' | h'
        · exact h'
        · exact hall _ h'
      exact hne (e1.trans e2.symm)
    simp [hfalse]

/-! ### The missing `expand` attribute -/

theorem scanLoop_missing_expand (rl : List Record) (count : Nat) (st : ProbeState)
    (hk : ∃ r ∈ rl, r ≠ []) :
    scanLoop Option.none 0 false (rl.map Except.ok) count st
      = Except.error (PyErr.attributeError "expand") := by
  induction rl generalizing count st with
  | nil => simp at hk
  | cons r rest ih =>
    cases r with
    | nil =>
      have hk' : ∃ r ∈ rest, r ≠ [] := by
        rcases hk with ⟨r', hr', hne⟩
        rcases List.mem_cons.mp hr' with rfl | hr'
        · exact absurd rfl hne
        · exact ⟨r', hr', hne⟩
      simp [scanLoop, probe_record, ih (count + 1) st hk']
    | cons kv tail =>
      obtain ⟨k0, v0⟩ := kv
      simp [scanLoop, probe_record]

/-! ### Concrete test fixtures -/

/-- A one-key record with an integer value. -/
def intRec : Record := [("a", PyVal.int 1)]

/-- A source yielding `n` copies of `intRec`, with the `expand` attribute set. -/
def intSource (n : Nat) : DataSource :=
  { expand := Option.some false, fields := Option.none,
    recs := List.replicate n (Except.ok intRec) }

/-- A record whose only value is a nested mapping. -/
def nestedRec : Record := [("a", PyVal.dict [("b", PyVal.int 1)])]

/-- A source yielding `nestedRec` once, with nested-mapping expansion enabled. -/
def nestedSource : DataSource :=
  { expand := Option.some true, fields := Option.none, recs := [Except.ok nestedRec] }

/-- A source whose iterator raises immediately. -/
def errorSource : DataSource :=
  { expand := Option.some false, fields := Option.none,
    recs := [Except.error (PyErr.sourceError "disk failure")] }

/-- A source whose concrete class never defined the `expand` attribute. -/
def noExpandSource : DataSource :=
  { expand := Option.none, fields := Option.none, recs := [Except.ok intRec] }

/-- A lifecycle stream whose state counts `initialize` and `finalize` calls. -/
def countingStream : DataStream (Nat × Nat) :=
  { state := (0, 0),
    initHook := fun p => (p.1 + 1, p.2),
    finHook := fun p => (p.1, p.2 + 1) }

/-- With `limit = 0` the stop condition is always falsy: the scan loop
coincides with the limit-free scan, whatever the counter. -/
theorem scanLoop_zero_eq_scanAllRecords (expand : Option Bool) (collapse : Bool)
    (recs : List (Except PyErr Record)) :
    ∀ (count : Nat) (st : ProbeState),
      scanLoop expand 0 collapse recs count st = scanAllRecords expand collapse recs st := by
  induction recs with
  | nil => intro count st; rfl
  | cons r rest ih =>
    intro count st
    cases r with
    | error e => rfl
    | ok record =>
      cases hpr : probe_record expand (if collapse then collapse_record record else record)
          "" st with
      | error e => simp [scanLoop, scanAllRecords, hpr]
      | ok st1 => simp [scanLoop, scanAllRecords, hpr, ih]

/-- With a nonzero `limit` and current counter `count ≤ limit`, the scan
loop stops after probing `limit + 1 - count` more records: it equals the
limit-free scan of exactly that prefix of the remaining stream.  (The check
runs after probing and the counter is incremented after the check.) -/
theorem scanLoop_limit_take (expand : Option Bool) (collapse : Bool) (limit : Nat)
    (hl : limit ≠ 0) (recs : List (Except PyErr Record)) :
    ∀ (count : Nat) (st : ProbeState), count ≤ limit →
      scanLoop expand limit collapse recs count st
        = scanAllRecords expand collapse (recs.take (limit + 1 - count)) st := by
  induction recs with
  | nil =>
    intro count st hc
    simp [scanLoop, scanAllRecords]
  | cons r rest ih =>
    intro count st hc
    have hm : limit + 1 - count = (limit - count) + 1 := by omega
    rw [hm, List.take_succ_cons]
    cases r with
    | error e => rfl
    | ok record =>
      cases hpr : probe_record expand (if collapse then collapse_record record else record)
          "" st with
      | error e => simp [scanLoop, scanAllRecords, hpr]
      | ok st1 =>
        by_cases hcl : limit ≤ count
        · have hce : count = limit := le_antisymm hc hcl
          subst hce
          simp [scanLoop, scanAllRecords, hpr, hl, Nat.sub_self]
        · have hc1 : count + 1 ≤ limit := by omega
          have ih1 := ih (count + 1) st1 hc1
          have hm2 : limit + 1 - (count + 1) = limit - count := by omega
          rw [hm2] at ih1
          simp [scanLoop, scanAllRecords, hpr, hl, hcl, ih1]

/-! ### Claim theorems -/

/-- C2: with `limit = 0` the stop condition `limit and count >= limit` is
always falsy, so `scanLoop` coincides (for every source, every collapse flag
and every loop counter) with the limit-free scan `scanAllRecords` that probes
every yielded record; in particular a 5-record stream feeds all 5 records to
the probe, as the counting probe for key `"a"` shows. -/
theorem scan_zero_limit_probes_all :
    (∀ (expand : Option Bool) (collapse : Bool) (recs : List (Except PyErr Record))
        (count : Nat) (st : ProbeState),
        scanLoop expand 0 collapse recs count st = scanAllRecords expand collapse recs st) ∧
    scanLoop (Option.some false) 0 false (List.replicate 5 (Except.ok intRec)) 0
        { keys := [], probes := [] }
      = Except.ok { keys := ["a"],
                    probes := [("a", { field := "a",
                                       storage_types := ["int", "int", "int", "int", "int"] })] } := by
  constructor
  · intro expand collapse recs count st
    exact scanLoop_zero_eq_scanAllRecords expand collapse recs count st
  · simp [scanLoop, probe_record, probeKey, lookupProbe, updateProbe,
      FieldTypeProbe.probe, pyTypeName, List.replicate, intRec]

/-- C5: the field built for a probed key is derived from the probe's
cumulative evidence: mixed or absent evidence gives storage type `"unknown"`
with no concrete type; uniform `"unicode"` evidence normalizes to
`"string"`; any other uniform native type gives `"unknown"` with that native
type recorded as `concrete_storage_type`. -/
theorem build_field_type_resolution (p : FieldTypeProbe) :
    ((p.storage_types = [] ∨
        ∃ t₁ t₂, t₁ ∈ p.storage_types ∧ t₂ ∈ p.storage_types ∧ t₁ ≠ t₂) →
      buildField p = { name := p.field, storage_type := "unknown",
                       concrete_storage_type := Option.none }) ∧
    ((p.storage_types ≠ [] ∧ ∀ t ∈ p.storage_types, t = "unicode") →
      buildField p = { name := p.field, storage_type := "string",
                       concrete_storage_type := Option.none }) ∧
    (∀ u, u ≠ "unicode" → p.storage_types ≠ [] → (∀ t ∈ p.storage_types, t = u) →
      buildField p = { name := p.field, storage_type := "unknown",
                       concrete_storage_type := Option.some u }) := by
  refine ⟨?_, ?_, ?_⟩
  · intro h
    have hu : p.unique_storage_type = Option.none := by
      rcases h with h | ⟨t₁, t₂, h1, h2, hne⟩
      · simp [FieldTypeProbe.unique_storage_type, h]
      · exact unique_storage_type_none_of_mixed p h1 h2 hne
    simp [buildField, hu]
  · intro h
    have hu := unique_storage_type_of_uniform p h.1 h.2
    simp [buildField, hu]
  · intro u hu hne hall
    have h := unique_storage_type_of_uniform p hne hall
    simp [buildField, h, hu]

/-- C5 witness: the three branches at concrete probes — mixed evidence,
uniform unicode evidence, uniform integer evidence. -/
theorem build_field_type_resolution_witness :
    buildField { field := "m", storage_types := ["int", "unicode"] }
        = { name := "m", storage_type := "unknown", concrete_storage_type := Option.none } ∧
    buildField { field := "u", storage_types := ["unicode", "unicode"] }
        = { name := "u", storage_type := "string", concrete_storage_type := Option.none } ∧
    buildField { field := "z", storage_types := ["int"] }
        = { name := "z", storage_type := "unknown", concrete_storage_type := Option.some "int" } :=
  ⟨(build_field_type_resolution _).1
      (Or.inr ⟨"int", "unicode", by simp, by simp, by decide⟩),
   (build_field_type_resolution _).2.1 ⟨by decide, by decide⟩,
   (build_field_type_resolution _).2.2 "int" (by decide) (by decide) (by decide)⟩

/-- C6: with `collapse = False` and expansion enabled, the record
`{"a": {"b": 1}}` yields exactly the field `"a.b"` (dotted child key) and no
field `"a"`; the probe dictionary shows the mapping value itself was never
probed — the only evidence fed to any probe is the single leaf `1` of native
type `"int"`. -/
theorem nested_expansion_dotted_key :
    scanLoop (Option.some true) 0 false nestedSource.recs 0 { keys := [], probes := [] }
      = Except.ok { keys := ["a.b"],
                    probes := [("a.b", { field := "a.b", storage_types := ["int"] })] } ∧
    nestedSource.read_fields 0 false
      = Except.ok
          ([{ name := "a.b", storage_type := "unknown",
              concrete_storage_type := Option.some "int" }],
           { expand := Option.some true,
             fields := Option.some [{ name := "a.b", storage_type := "unknown",
                                      concrete_storage_type := Option.some "int" }],
             recs := [Except.ok nestedRec] }) := by
  constructor <;>
    simp [nestedSource, nestedRec, DataSource.read_fields, scanLoop, probe_record, probeKey,
      lookupProbe, updateProbe, FieldTypeProbe.probe, pyTypeName, buildFields, buildField,
      FieldTypeProbe.unique_storage_type]

/-- C7: if the scan raises (source iteration, attribute lookup, or probing),
`read_fields` propagates exactly that error and the source object — in
particular its `fields` attribute — is left unchanged; no partial field list
is assigned. -/
theorem read_fields_error_propagation (s : DataSource) (limit : Nat) (collapse : Bool) :
    (∀ e, scanLoop s.expand limit collapse s.recs 0 { keys := [], probes := [] }
        = Except.error e →
      s.read_fields limit collapse = Except.error (e, s)) ∧
    (∀ e s', s.read_fields limit collapse = Except.error (e, s') → s' = s) := by
  constructor
  · intro e he
    simp [DataSource.read_fields, he]
  · intro e s' h
    unfold DataSource.read_fields at h
    cases hs : scanLoop s.expand limit collapse s.recs 0 { keys := [], probes := [] } with
    | error e0 =>
      rw [hs] at h
      simp at h
      exact h.2.symm
    | ok st =>
      rw [hs] at h
      cases hb : buildFields st.keys st.probes with
      | error e0 =>
        simp [hb] at h
        exact h.2.symm
      | ok fs =>
        simp [hb] at h

/-- C7 witness: a source whose iterator raises at once propagates that very
error and leaves the source unchanged. -/
theorem read_fields_error_propagation_witness :
    errorSource.read_fields 0 false
      = Except.error (PyErr.sourceError "disk failure", errorSource) :=
  (read_fields_error_propagation errorSource 0 false).1 _ (by simp [errorSource, scanLoop])

/-- C8: the scoped use of a stream calls `initialize` before the body runs
(the body receives `s.enter`, the stream itself after `initialize`), and on
both exit paths `finalize` runs exactly once on the stream the body left
behind — on the error path the error then still propagates to the caller. -/
theorem with_stream_lifecycle {σ α : Type} (s : DataStream σ)
    (body : DataStream σ → Except (PyErr × DataStream σ) (α × DataStream σ)) :
    (∀ a s2, body s.enter = Except.ok (a, s2) →
      withStream s body = Except.ok (a, s2.exitStream)) ∧
    (∀ e s2, body s.enter = Except.error (e, s2) →
      withStream s body = Except.error (e, s2.exitStream)) := by
  constructor
  · intro a s2 hb
    simp [withStream, hb]
  · intro e s2 hb
    simp [withStream, hb]

/-- C8 witness: with hooks that count calls, a normal body exits with exactly
one `initialize` and one `finalize` call, and a failing body still gets its
single `finalize` call before the error surfaces. -/
theorem with_stream_lifecycle_witness :
    (withStream countingStream (fun t => Except.ok ((), t))
        = Except.ok ((), countingStream.enter.exitStream) ∧
      countingStream.enter.exitStream.state = (1, 1)) ∧
    @withStream (Nat × Nat) Unit countingStream
        (fun t => Except.error (PyErr.sourceError "boom", t))
      = Except.error (PyErr.sourceError "boom", countingStream.enter.exitStream) :=
  ⟨⟨(with_stream_lifecycle countingStream _).1 () countingStream.enter rfl, rfl⟩,
   (@with_stream_lifecycle (Nat × Nat) Unit countingStream
      (fun t => Except.error (PyErr.sourceError "boom", t))).2 (PyErr.sourceError "boom")
     countingStream.enter rfl⟩

/-- C9: the contract methods of the abstract bases — `DataSource.rows`,
`DataSource.records`, `DataTarget.append` — raise `NotImplementedError` for
every receiver and every argument; they never return normally. -/
theorem abstract_base_not_implemented :
    (∀ s : DataSource, s.rows = Except.error PyErr.notImplementedError) ∧
    (∀ s : DataSource, DataSource.records s = Except.error PyErr.notImplementedError) ∧
    (∀ (t : DataTarget) (obj : PyVal),
      t.append obj = Except.error PyErr.notImplementedError) :=
  ⟨fun _ => rfl, fun _ => rfl, fun _ _ => rfl⟩

/-- C10: `read_fields` reads the undeclared `self.expand` attribute inside
`probe_record`; on a source whose concrete class never set it, any yielded
record with at least one key makes the scan raise `AttributeError` before
that key's probing completes, and the source (its `fields` in particular) is
returned unchanged inside the error. -/
theorem read_fields_missing_expand (s : DataSource) (rl : List Record)
    (hx : s.expand = Option.none) (hr : s.recs = rl.map Except.ok)
    (hk : ∃ r ∈ rl, r ≠ []) :
    s.read_fields 0 false = Except.error (PyErr.attributeError "expand", s) := by
  unfold DataSource.read_fields
  rw [hx, hr, scanLoop_missing_expand rl 0 _ hk]

/-- C10 witness: a source with one one-key record and no `expand` attribute
raises `AttributeError` from `read_fields`. -/
theorem read_fields_missing_expand_witness :
    noExpandSource.read_fields 0 false
      = Except.error (PyErr.attributeError "expand", noExpandSource) :=
  read_fields_missing_expand noExpandSource [intRec] rfl rfl
    ⟨intRec, by simp, by simp [intRec]⟩

/-- C3: on a stream of records with no nested-mapping values (and with the
`expand` attribute set to anything), `read_fields(0, False)` succeeds and
returns one field per distinct top-level key, named exactly those keys, in
the order each key was first seen, with no duplicates; the field list is
assigned to the stream's `fields`. -/
theorem read_fields_distinct_keys (s : DataSource) (b : Bool) (rl : List Record)
    (hx : s.expand = Option.some b) (hr : s.recs = rl.map Except.ok)
    (hf : ∀ r ∈ rl, recFlat r = true) :
    ∃ fs s', s.read_fields 0 false = Except.ok (fs, s') ∧
      fs.map Field.name = firstSeenKeys rl ∧
      (firstSeenKeys rl).Nodup ∧
      s'.fields = Option.some fs := by
  have hco0 : (ProbeState.mk [] []).Coherent := ⟨rfl, by simp⟩
  have hscan := @scanLoop_zero_flat b rl 0 { keys := [], probes := [] } hf
  have hcoF := foldl_probeFlat_coherent rl { keys := [], probes := [] } hco0
  have hkeysF := foldl_probeFlat_keys rl { keys := [], probes := [] } hco0
  obtain ⟨fs, hbf, hnames, _⟩ := buildFields_spec _ _ (coherent_lookup_field hcoF)
  have hrun : s.read_fields 0 false
      = Except.ok (fs, { expand := s.expand, fields := Option.some fs, recs := s.recs }) := by
    unfold DataSource.read_fields
    rw [hx, hr, hscan]
    simp [hbf]
  refine ⟨fs, _, hrun, ?_, firstSeenKeys_nodup rl, rfl⟩
  rw [hnames, hkeysF]
  rfl

/-- C3 witness fixture: two flat records over keys x, y, z. -/
def multiKeyRecords : List Record :=
  [[("x", PyVal.int 1), ("y", PyVal.unicode "u")],
   [("y", PyVal.int 2), ("z", PyVal.str "s")]]

/-- C3 witness fixture: a source yielding `multiKeyRecords`. -/
def multiKeySource : DataSource :=
  { expand := Option.some false, fields := Option.none,
    recs := multiKeyRecords.map Except.ok }

/-- C3 witness: the two-record, three-key stream gives exactly the fields
x, y, z in first-seen order. -/
theorem read_fields_distinct_keys_witness :
    ∃ fs s', multiKeySource.read_fields 0 false = Except.ok (fs, s') ∧
      fs.map Field.name = firstSeenKeys multiKeyRecords ∧
      (firstSeenKeys multiKeyRecords).Nodup ∧
      s'.fields = Option.some fs :=
  read_fields_distinct_keys multiKeySource false multiKeyRecords rfl rfl (by decide)

/-- Integer values carry the native type name `"int"`. -/
theorem pyTypeName_of_isInt {v : PyVal} (h : v.isInt = true) : pyTypeName v = "int" := by
  cases v with
  | int n => rfl
  | bool b => simp [PyVal.isInt] at h
  | str t => simp [PyVal.isInt] at h
  | unicode t => simp [PyVal.isInt] at h
  | pynone => simp [PyVal.isInt] at h
  | dict d => simp [PyVal.isInt] at h

theorem recHasIntAt_any {key : String} {r : Record} (h : recHasIntAt key r = true) :
    r.any (fun kv => kv.1 = key) = true := by
  unfold recHasIntAt at h
  rw [Bool.and_eq_true] at h
  exact h.1

theorem recHasIntAt_types {key : String} {r : Record} (h : recHasIntAt key r = true) :
    ∀ kv ∈ r, kv.1 = key → pyTypeName kv.2 = "int" := by
  intro kv hkv hk
  unfold recHasIntAt at h
  rw [Bool.and_eq_true] at h
  have hone := List.all_eq_true.mp h.2 kv hkv
  rw [hk] at hone
  simp at hone
  exact pyTypeName_of_isInt hone

/-- C4 counterexample: on the one-record stream `{"a": 1}` — all values of
`"a"` are integers — the resulting field for `"a"` has
`storage_type = "unknown"` (with the native type only in
`concrete_storage_type`), because the normalization table maps nothing but
`"unicode"`; this refutes "a resolved storage type that is not unknown". -/
theorem read_fields_int_key_counterexample :
    (intSource 1).read_fields 0 false
      = Except.ok
          ([{ name := "a", storage_type := "unknown",
              concrete_storage_type := Option.some "int" }],
           { expand := Option.some false,
             fields := Option.some [{ name := "a", storage_type := "unknown",
                                      concrete_storage_type := Option.some "int" }],
             recs := List.replicate 1 (Except.ok intRec) }) := by
  simp [intSource, intRec, DataSource.read_fields, scanLoop, probe_record, probeKey,
    lookupProbe, updateProbe, FieldTypeProbe.probe, pyTypeName, buildFields, buildField,
    FieldTypeProbe.unique_storage_type, List.replicate]

/-- C4 amended: on every nonempty stream of flat records in which every
record has key `"a"` with only integer values, `read_fields(0, False)`
produces a field named `"a"` whose single-type signal is the recorded
`concrete_storage_type = "int"`, while `storage_type` itself is `"unknown"`
(only `"unicode"` has a normalization mapping). -/
theorem read_fields_int_key_concrete_type (s : DataSource) (b : Bool) (rl : List Record)
    (hx : s.expand = Option.some b) (hr : s.recs = rl.map Except.ok)
    (hne : rl ≠ []) (hf : ∀ r ∈ rl, recFlat r = true)
    (ha : ∀ r ∈ rl, recHasIntAt "a" r = true) :
    ∃ fs s', s.read_fields 0 false = Except.ok (fs, s') ∧
      ∃ f, f ∈ fs ∧ f.name = "a" ∧ f.storage_type = "unknown" ∧
        f.concrete_storage_type = Option.some "int" := by
  have hco0 : (ProbeState.mk [] []).Coherent := ⟨rfl, by simp⟩
  have hscan := @scanLoop_zero_flat b rl 0 { keys := [], probes := [] } hf
  have hcoF := foldl_probeFlat_coherent rl { keys := [], probes := [] } hco0
  obtain ⟨fs, hbf, hnames, hmem⟩ := buildFields_spec _ _ (coherent_lookup_field hcoF)
  have hrun : s.read_fields 0 false
      = Except.ok (fs, { expand := s.expand, fields := Option.some fs, recs := s.recs }) := by
    unfold DataSource.read_fields
    rw [hx, hr, hscan]
    simp [hbf]
  have hev : ProbeEvidence "a" "int"
      (rl.foldl (fun st r => probeFlat r st) { keys := [], probes := [] }) := by
    refine foldl_probeFlat_evidence rl _ ?_ ?_
    · intro p hp
      simp [lookupProbe] at hp
    · intro r hr' kv hkv hk
      exact recHasIntAt_types (ha r hr') kv hkv hk
  have hsome : (lookupProbe
      ((rl.foldl (fun st r => probeFlat r st) { keys := [], probes := [] })).probes
      "a").isSome := by
    refine foldl_probeFlat_isSome rl _ hne ?_
    intro r hr'
    exact recHasIntAt_any (ha r hr')
  obtain ⟨p, hp⟩ := Option.isSome_iff_exists.mp hsome
  have hfield : p.field = "a" := hcoF.2 ("a", p) (lookupProbe_mem hp)
  have hegood := hev p hp
  have huniq : p.unique_storage_type = Option.some "int" :=
    unique_storage_type_of_uniform p hegood.1 hegood.2
  have hmemkeys : "a" ∈
      (rl.foldl (fun st r => probeFlat r st) { keys := [], probes := [] }).keys := by
    rw [← hcoF.1]
    exact lookupProbe_isSome_iff.mp hsome
  refine ⟨fs, _, hrun, buildField p, hmem "a" p hmemkeys hp, ?_, ?_, ?_⟩
  · rw [buildField_name, hfield]
  · simp [buildField, huniq]
  · simp [buildField, huniq]

/-- C4 amended witness: a two-record all-integer stream at key `"a"`. -/
theorem read_fields_int_key_concrete_type_witness :
    ∃ fs s', (intSource 2).read_fields 0 false = Except.ok (fs, s') ∧
      ∃ f, f ∈ fs ∧ f.name = "a" ∧ f.storage_type = "unknown" ∧
        f.concrete_storage_type = Option.some "int" :=
  read_fields_int_key_concrete_type (intSource 2) false [intRec, intRec] rfl rfl
    (List.cons_ne_nil _ _) (by decide) (by decide)

/-- A five-record source with five distinct keys, one per record. -/
def fiveKeySource : DataSource :=
  { expand := Option.some false, fields := Option.none,
    recs := [Except.ok [("k1", PyVal.int 1)], Except.ok [("k2", PyVal.int 2)],
             Except.ok [("k3", PyVal.int 3)], Except.ok [("k4", PyVal.int 4)],
             Except.ok [("k5", PyVal.int 5)]] }

/-- C1 counterexample: `read_fields(limit=2)` on the 5-record source returns
the three fields k1, k2, k3 — the field `"k3"` was discovered only while
probing the third record, so exactly 3 records were probed, not 2, and the
returned field list is not the one discovered within 2 records. -/
theorem read_fields_limit_two_counterexample :
    fiveKeySource.read_fields 2 false
      = Except.ok
          ([{ name := "k1", storage_type := "unknown",
              concrete_storage_type := Option.some "int" },
            { name := "k2", storage_type := "unknown",
              concrete_storage_type := Option.some "int" },
            { name := "k3", storage_type := "unknown",
              concrete_storage_type := Option.some "int" }],
           { expand := Option.some false,
             fields := Option.some
               [{ name := "k1", storage_type := "unknown",
                  concrete_storage_type := Option.some "int" },
                { name := "k2", storage_type := "unknown",
                  concrete_storage_type := Option.some "int" },
                { name := "k3", storage_type := "unknown",
                  concrete_storage_type := Option.some "int" }],
             recs := fiveKeySource.recs }) := by
  simp [fiveKeySource, DataSource.read_fields, scanLoop, probe_record, probeKey,
    lookupProbe, updateProbe, FieldTypeProbe.probe, pyTypeName, buildFields, buildField,
    FieldTypeProbe.unique_storage_type]

/-- C1 amended: for every source whose iterator yields at least 5 records
(and every collapse flag), the stop check `limit and count >= limit` runs
after probing a record and `count` is incremented only after the check, so
`read_fields` with `limit = 2` probes exactly the first `limit + 1 = 3`
records: its scan equals the limit-free scan of exactly the 3-record prefix,
and the call returns exactly the field list (or the error) that a full scan
of those 3 records produces. -/
theorem read_fields_limit_two_probes_three (s : DataSource) (collapse : Bool)
    (h : 5 ≤ s.recs.length) :
    scanLoop s.expand 2 collapse s.recs 0 { keys := [], probes := [] }
      = scanAllRecords s.expand collapse (s.recs.take 3) { keys := [], probes := [] } ∧
    (s.recs.take 3).length = 3 ∧
    s.read_fields 2 collapse
      = (match DataSource.read_fields
            { expand := s.expand, fields := s.fields, recs := s.recs.take 3 } 0 collapse with
         | Except.ok (fs, _) =>
           Except.ok (fs, { expand := s.expand, fields := Option.some fs, recs := s.recs })
         | Except.error (e, _) => Except.error (e, s)) := by
  have h1 : scanLoop s.expand 2 collapse s.recs 0 { keys := [], probes := [] }
      = scanAllRecords s.expand collapse (s.recs.take 3) { keys := [], probes := [] } := by
    have h3 : (2 + 1 - 0 : Nat) = 3 := rfl
    have := scanLoop_limit_take s.expand collapse 2 (by decide) s.recs 0
      { keys := [], probes := [] } (by omega)
    rw [h3] at this
    exact this
  refine ⟨h1, ?_, ?_⟩
  · rw [List.length_take]
    omega
  · simp only [DataSource.read_fields]
    rw [h1, scanLoop_zero_eq_scanAllRecords]
    cases hsc : scanAllRecords s.expand collapse (s.recs.take 3)
        { keys := [], probes := [] } with
    | error e => simp [hsc]
    | ok st =>
      cases hb : buildFields st.keys st.probes with
      | error e => simp [hsc, hb]
      | ok fs => simp [hsc, hb]

/-- C1 amended witness: on the concrete 5-record, five-key source, the
limit-2 scan is exactly the limit-free scan of the first 3 records and the
limit-2 call returns exactly the field list of a full scan of those 3. -/
theorem read_fields_limit_two_probes_three_witness :
    scanLoop fiveKeySource.expand 2 false fiveKeySource.recs 0 { keys := [], probes := [] }
      = scanAllRecords fiveKeySource.expand false (fiveKeySource.recs.take 3)
          { keys := [], probes := [] } ∧
    (fiveKeySource.recs.take 3).length = 3 ∧
    fiveKeySource.read_fields 2 false
      = (match DataSource.read_fields
            { expand := fiveKeySource.expand, fields := fiveKeySource.fields,
              recs := fiveKeySource.recs.take 3 } 0 false with
         | Except.ok (fs, _) =>
           Except.ok (fs, { expand := fiveKeySource.expand, fields := Option.some fs,
                            recs := fiveKeySource.recs })
         | Except.error (e, _) => Except.error (e, fiveKeySource)) :=
  read_fields_limit_two_probes_three fiveKeySource false (by decide)

end Brewery
